import Mathlib

/-!
Shallow embedding of the bank-statement parsing and categorization pipeline
of backend/crew/tools.py (BankStatementParserTool and its module helpers).

Modelling conventions:
* monetary amounts are exact decimals: an integer mantissa with a decimal
  scale, meaning num / 10 ^ scale (Money.toRat); Python floats are idealized
  as the exact decimal values they were parsed from;
* Python dictionaries are modelled as functions into Option;
* missing (NaN) cells are modelled as none;
* the LLM client is an abstract per-block function returning either the
  parsed (description, category) pairs for the block (the composition of
  llm.invoke and parse_llm_categorization_response) or an error, which
  models a raised exception.
-/

/-- Model of Python str.strip: drop whitespace from both ends. -/
def pyStrip (s : String) : String :=
  (((s.toList.dropWhile Char.isWhitespace).reverse.dropWhile Char.isWhitespace).reverse).asString

/-- ASCII lower-casing of a single character, modelling str.lower on the
ASCII fragment (all pattern keywords of the source are lower-case). -/
def lowerChar (c : Char) : Char :=
  if 'A' ≤ c ∧ c ≤ 'Z' then Char.ofNat (c.toNat + 32) else c

/-- Model of Python str.lower (ASCII fragment). -/
def pyLower (s : String) : String :=
  (s.toList.map lowerChar).asString

/-- Remove the given prefix from a list, if present. -/
def dropPrefixList : List Char → List Char → Option (List Char)
  | [], l => some l
  | _ :: _, [] => none
  | p :: ps, c :: cs => if c = p then dropPrefixList ps cs else none

/-- Fuel-driven worker for splitting on a separator: leftmost,
non-overlapping occurrences, exactly as Python str.split with a nonempty
separator scans the string. -/
def splitSepAux (sep : List Char) : Nat → List Char → List Char → List (List Char)
  | 0, acc, l => [acc.reverse ++ l]
  | fuel + 1, acc, l =>
    match dropPrefixList sep l with
    | some rest => acc.reverse :: splitSepAux sep fuel [] rest
    | none =>
      match l with
      | [] => [acc.reverse]
      | c :: cs => splitSepAux sep fuel (c :: acc) cs

/-- Model of Python str.split(sep) for a nonempty separator. -/
def splitSep (sep s : String) : List String :=
  (splitSepAux sep.toList (s.toList.length + 1) [] s.toList).map List.asString

/-- Model of Python str.replace: replace all non-overlapping occurrences. -/
def replaceSep (pat repl s : String) : String :=
  String.intercalate repl (splitSep pat s)

/-- Model of Python str.count for a single character. -/
def countChar (c : Char) (s : String) : Nat :=
  s.toList.count c

/-- Occurrence test of a plain keyword inside a text; models re.search for a
single literal alternative of the category patterns. -/
def containsKw (kw text : String) : Bool :=
  (splitSep kw text).length != 1

/-- An exact decimal amount: the value num / 10 ^ scale. Python float
values are idealized as the exact decimals they were parsed from. -/
structure Money where
  num : Int
  scale : Nat
deriving DecidableEq, Repr

/-- The rational value of an exact decimal amount. -/
def Money.toRat (m : Money) : ℚ := (m.num : ℚ) / (10 : ℚ) ^ m.scale

/-- Numeric value of a digit string. -/
def decDigitsVal (cs : List Char) : Nat :=
  cs.foldl (fun n c => 10 * n + (c.toNat - '0'.toNat)) 0

def allDigits (cs : List Char) : Bool :=
  cs.all Char.isDigit

/-- Model of Python float() restricted to plain decimal literals: optional
sign, integer digits, optional fractional digits (at least one digit in
total). Strings containing any other character are rejected, exactly as
float() raises on them. -/
def parseDecimal? (s : String) : Option Money :=
  let p :=
    match s.toList with
    | '-' :: rest => (true, rest)
    | '+' :: rest => (false, rest)
    | rest => (false, rest)
  let sgn : Int := if p.1 then -1 else 1
  match splitSepAux ['.'] (p.2.length + 1) [] p.2 with
  | [intp] =>
    if allDigits intp ∧ intp ≠ [] then
      some ⟨sgn * (decDigitsVal intp : Int), 0⟩
    else none
  | [intp, fracp] =>
    if allDigits intp ∧ allDigits fracp ∧ (intp ≠ [] ∨ fracp ≠ []) then
      some ⟨sgn * ((decDigitsVal intp : Int) * ((10 ^ fracp.length : Nat) : Int)
        + (decDigitsVal fracp : Int)), fracp.length⟩
    else none
  | _ => none

/-- backend/crew/tools.py, normalize_monetary_value (defined inside
BankStatementParserTool._normalize_columns). The input models the raw cell:
none is a missing (NaN) value. -/
def normalize_monetary_value (val : Option String) : Money :=
  match val with
  | none => ⟨0, 0⟩
  | some v =>
    if v = "" then ⟨0, 0⟩
    else
      let str_val := pyStrip v
      match parseDecimal? str_val with
      | some q => q
      | none =>
        let s1 := (str_val.toList.filter
          (fun c => !((c == 'R') || (c == '$') || c.isWhitespace))).asString
        let dot_count := countChar '.' s1
        let comma_count := countChar ',' s1
        let s2 :=
          if comma_count = 1 ∧ 1 ≤ dot_count then
            replaceSep "," "." (replaceSep "." "" s1)
          else if comma_count = 1 ∧ dot_count = 0 then
            replaceSep "," "." s1
          else if 1 ≤ comma_count ∧ dot_count = 0 then
            if 1 < comma_count ∨ 3 < (replaceSep "," "" s1).length then
              replaceSep "," "" s1
            else replaceSep "," "." s1
          else s1
        (parseDecimal? s2).getD ⟨0, 0⟩

/-- backend/crew/tools.py, clean_transaction_name: keep at most the first two
segments of a description split on the literal separator. -/
def clean_transaction_name (t : String) : String :=
  if t = "" then ""
  else
    let parts := splitSep " - " t
    if 2 < parts.length then String.intercalate " - " (parts.take 2) else t

/-- backend/crew/tools.py, BankStatementParserTool._clean_description.
none models a missing (NaN) description. Python computes the separator
count with str.count, which equals the number of split parts minus one. -/
def clean_description : Option String → String
  | none => ""
  | some d =>
    if d = "" then ""
    else
      let ds := pyStrip d
      let parts := splitSep " - " ds
      if 2 ≤ parts.length - 1 then pyStrip (String.intercalate " - " (parts.take 2))
      else ds

/-- backend/crew/tools.py, CATEGORY_MAP, in source (dict insertion) order.
Each pattern is an alternation of literal keywords. -/
def CATEGORY_MAP : List (String × String) := [
  ("mercado|supermerc|hiper|carrefour|pao de acucar|assai", "Mercado"),
  ("restaurante|pizza|lanchonete|ifood|ubereats", "Alimentação"),
  ("aluguel|condominio|iptu|imobiliaria", "Moradia"),
  ("energia|luz|copel|enel|eletrobras|cemig", "Moradia"),
  ("agua|sanepar|sabesp|corsan", "Moradia"),
  ("internet|vivo|claro|tim|oi|net", "Serviços"),
  ("uber|99|transporte|onibus|metrô|metro|estacionamento|combustivel|posto|autopass", "Transporte"),
  ("farmacia|drogaria|droga|saude|consulta|seguro saude", "Saúde"),
  ("netflix|spotify|disney|hbo|prime video", "Streaming"),
  ("salario|provento|pagto|pagamento|creditos", "Renda"),
  ("pix|ted|doc|transferencia", "Transferências"),
  ("educacao|curso|faculdade|escola", "Educação"),
  ("invest|tesouro|cdb|fundo|bolsa|corretora|clear|xp|rico", "Investimentos")]

/-- re.search of an alternation of literal keywords: some alternative
occurs as a substring. -/
def matchesPattern (pat text : String) : Bool :=
  (splitSep "|" pat).any (fun kw => containsKw kw text)

/-- backend/crew/tools.py, BankStatementParserTool._categorize: first
matching rule of CATEGORY_MAP against the lowercased description, default
category when none matches. -/
def categorizeRegex (descricao : String) : String :=
  match CATEGORY_MAP.find? (fun p => matchesPattern p.1 (pyLower descricao)) with
  | some p => p.2
  | none => "Outros"

/-- The categorization cache, a Python dict from cleaned descriptions to
category labels, modelled as a function into Option. -/
def Cache : Type := String → Option String

def emptyCache : Cache := fun _ => none

/-- Python dict item assignment cache[k] = v. -/
def cacheInsert (c : Cache) (k v : String) : Cache :=
  fun q => if q = k then some v else c q

/-- The file system backing the cache, path to serialized mapping; pickle
round-trips the dict, so the stored blob is modelled as the mapping. -/
def FS : Type := String → Option Cache

/-- backend/crew/tools.py, load_cache: unpickle when the path exists,
empty mapping otherwise. -/
def load_cache (path : String) (fs : FS) : Cache :=
  (fs path).getD emptyCache

/-- backend/crew/tools.py, save_cache: overwrite the blob at the path. -/
def save_cache (cache : Cache) (path : String) (fs : FS) : FS :=
  fun q => if q = path then some cache else fs q

/-- An abstract per-block LLM step: the composition of llm.invoke and
parse_llm_categorization_response for one block; error models a raised
exception anywhere in the block processing. -/
def LLMFun : Type := List String → Except Unit (List (String × String))

/-- backend/crew/tools.py, _categorize_with_ollama, selection loop: the
transactions submitted to the LLM are those whose cleaned name is nonempty
and absent from the cache. -/
def selectToCategorize (cache : Cache) (transacoes : List String) : List String :=
  transacoes.filter (fun t =>
    let tc := clean_transaction_name t
    (tc != "") && (cache tc).isNone)

/-- Blocks of block_size consecutive transactions, as range(0, n, bs)
slicing does. Fuel-driven so the definition is structural. -/
def chunkAux (bs : Nat) : Nat → List α → List (List α)
  | _, [] => []
  | 0, l => [l]
  | fuel + 1, l => l.take bs :: chunkAux bs fuel (l.drop bs)

def chunkList (bs : Nat) (l : List α) : List (List α) :=
  chunkAux bs l.length l

/-- The cache-update loop over the parsed (transaction, category) pairs of
one block: write when the key is absent or its stored value is the default
label. -/
def processResultado (cache : Cache) (resultado : List (String × String)) : Cache :=
  resultado.foldl (fun c p =>
    let tc := clean_transaction_name p.1
    if (c tc).isNone || (c tc == some "Outros") then cacheInsert c tc p.2 else c) cache

/-- One block of _categorize_with_ollama: on success, apply the parsed
pairs then regex-fallback the block members the parse did not cover; on a
raised exception, regex-fallback every uncached member of the block. -/
def processBlock (llm : LLMFun) (cache : Cache) (bloco : List String) : Cache :=
  match llm bloco with
  | Except.ok resultado =>
    let cache1 := processResultado cache resultado
    let processadas := resultado.map (fun p => clean_transaction_name p.1)
    bloco.foldl (fun c t =>
      let tc := clean_transaction_name t
      if (!(processadas.contains tc)) && (c tc).isNone then
        cacheInsert c tc (categorizeRegex t)
      else c) cache1
  | Except.error _ =>
    bloco.foldl (fun c t =>
      let tc := clean_transaction_name t
      if (c tc).isNone then cacheInsert c tc (categorizeRegex t) else c) cache

/-- The final loop of _categorize_with_ollama: read the category from the
cache, falling back to the regex categorizer when the key is absent or its
value is falsy (the empty string). -/
def applyCacheCategories (cache : Cache) (transacoes : List String) : List String :=
  transacoes.map (fun t =>
    match cache (clean_transaction_name t) with
    | some c => if c = "" then categorizeRegex t else c
    | none => categorizeRegex t)

/-- backend/crew/tools.py, BankStatementParserTool._categorize_with_ollama
on the cleaned expense descriptions: select the uncached transactions,
process them in blocks, and read every category back from the final cache,
which is also what save_cache persists (the cache is saved, and hence
changed on disk, only when the selection is nonempty; when it is empty the
final cache equals the initial one, so returning the final cache models
the on-disk state in both cases). The in-memory cache after the block loop
of _categorize_with_ollama: untouched when nothing was selected. -/
def ollamaFinalCache (llm : LLMFun) (bs : Nat) (cache0 : Cache)
    (transacoes : List String) : Cache :=
  if (selectToCategorize cache0 transacoes).isEmpty then cache0
  else (chunkList bs (selectToCategorize cache0 transacoes)).foldl (processBlock llm) cache0

/-- backend/crew/tools.py, BankStatementParserTool._categorize_with_ollama
on the cleaned expense descriptions: the categories read back from the
final cache, together with that cache (the persisted state). -/
def categorize_with_ollama (llm : LLMFun) (bs : Nat) (cache0 : Cache)
    (transacoes : List String) : List String × Cache :=
  (applyCacheCategories (ollamaFinalCache llm bs cache0 transacoes) transacoes,
    ollamaFinalCache llm bs cache0 transacoes)

/-- Alias lists DEFAULT_COLUMNS_CANDIDATES of backend/crew/tools.py. -/
def dateCands : List String := ["data", "date", "dt", "data_lancamento"]

def descCands : List String :=
  ["descricao", "Descrição", "historico", "description", "detalhe", "descrição", "title"]

def amountCands : List String := ["valor", "amount", "vl", "montante"]

/-- The key under which a column is registered in the lookup dict:
c.lower().strip(). -/
def colKey (c : String) : String := pyStrip (pyLower c)

/-- Lookup in the dict built by comprehension over the columns: on key
collisions the last column wins, as Python dict construction overwrites. -/
def colsLookup (cols : List String) (key : String) : Option String :=
  cols.reverse.find? (fun c => colKey c == key)

/-- find_col of _normalize_columns: first alias present in the dict. -/
def find_col (cols : List String) (cands : List String) : Option String :=
  cands.findSome? (fun al => colsLookup cols al)

/-- Python `x or y` on an optional column name: y when x is None or the
falsy empty string. -/
def orFallback (o fb : Option String) : Option String :=
  match o with
  | some c => if c = "" then fb else some c
  | none => fb

/-- One guarded drop: df.drop(columns=[n]) when the label is present. -/
def dropIdStep (cs : List String) (n : String) : List String :=
  if cs.contains n then cs.filter (fun c => c != n) else cs

/-- The identifier-drop loop at the end of _normalize_columns: the four
exact spellings, in source order. -/
def dropIdCols (cs : List String) : List String :=
  ["identificador", "Identificador", "id", "ID"].foldl dropIdStep cs

/-- backend/crew/tools.py, BankStatementParserTool._normalize_columns,
restricted to its effect on the column names: alias-based resolution with
positional fallback, renaming to the canonical three names (later entries
of the rename dict win on collisions), then the identifier-drop loop.
none models the IndexError Python raises when a positional fallback is
needed but the frame has too few columns (caught by _run). -/
def normalizeColumnNames (cols : List String) : Option (List String) := do
  let c_date ← orFallback (find_col cols dateCands) (cols.get? 0)
  let c_desc ← orFallback (find_col cols descCands) (cols.get? 1)
  let c_amt ← orFallback (find_col cols amountCands) (cols.get? 2)
  let renamed := cols.map (fun c =>
    if c = c_amt then "valor"
    else if c = c_desc then "descricao"
    else if c = c_date then "data"
    else c)
  some (dropIdCols renamed)

/-- The second identifier drop, in _run after recombination: the two exact
spellings checked there. -/
def dropIdRun (cs : List String) : List String :=
  dropIdStep (dropIdStep cs "identificador") "Identificador"

/-- A raw statement row after column renaming: the three canonical cells,
with none modelling a missing (NaN) cell. -/
structure RawRow where
  data : String
  descricao : Option String
  valor : Option String
deriving DecidableEq, Repr

/-- A normalized row: cleaned description and parsed amount. -/
structure TxN where
  data : String
  descricao : String
  valor : Money
deriving DecidableEq, Repr

/-- A categorized transaction of the output payload. -/
structure TxC where
  data : String
  descricao : String
  valor : Money
  categoria : String
deriving DecidableEq, Repr

/-- The fields of the summary payload of BankStatementParserTool._run the
claims are about. -/
structure Payload where
  n_transacoes : Nat
  n_despesas : Nat
  n_receitas : Nat
  totais_por_categoria : List (String × Money)
  transacoes : List TxC
deriving DecidableEq, Repr

/-- The outcome of _run: either the ok payload or the structured
{ok: false, error} object; the try/except wrapper of _run guarantees no
other outcome escapes to the caller. -/
inductive RunResult where
  | ok : Payload → RunResult
  | err : String → RunResult
deriving DecidableEq, Repr

def RunResult.payloadD : RunResult → Payload
  | RunResult.ok p => p
  | RunResult.err _ => ⟨0, 0, 0, [], []⟩

/-- Exact-decimal addition, aligning the scales. -/
def Money.add (a b : Money) : Money :=
  let k := max a.scale b.scale
  ⟨a.num * ((10 ^ (k - a.scale) : Nat) : Int) + b.num * ((10 ^ (k - b.scale) : Nat) : Int), k⟩

def moneySum (l : List Money) : Money := l.foldl Money.add ⟨0, 0⟩

/-- Exact-decimal order by cross multiplication to a common scale. -/
def Money.leB (a b : Money) : Bool :=
  let k := max a.scale b.scale
  decide (a.num * ((10 ^ (k - a.scale) : Nat) : Int) ≤ b.num * ((10 ^ (k - b.scale) : Nat) : Int))

/-- Code-point lexicographic order on strings, as pandas sorts string
columns. -/
def charListLe : List Char → List Char → Bool
  | [], _ => true
  | _ :: _, [] => false
  | a :: as, b :: bs =>
    if a.toNat < b.toNat then true
    else if b.toNat < a.toNat then false
    else charListLe as bs

def strLeB (a b : String) : Bool := charListLe a.toList b.toList

/-- Insertion into a sorted list by a boolean comparison. -/
def insertSorted (le : α → α → Bool) (x : α) : List α → List α
  | [] => [x]
  | y :: ys => if le x y then x :: y :: ys else y :: insertSorted le x ys

/-- Sorting by a boolean comparison; models df.sort_values (the claims do
not depend on the order of ties). -/
def sortByB (le : α → α → Bool) (l : List α) : List α :=
  l.foldr (insertSorted le) []

/-- Rows of the expense partition: df[df["valor"] < 0]. The sign of an
exact decimal is the sign of its mantissa. -/
def expenseRows (norm : List TxN) : List TxN :=
  norm.filter (fun r => decide (r.valor.num < 0))

/-- Rows of the income partition: df[df["valor"] >= 0]. -/
def incomeRows (norm : List TxN) : List TxN :=
  norm.filter (fun r => decide (0 ≤ r.valor.num))

/-- Per-category totals over the non-income rows, as the groupby-sum of
_run followed by sort_values("valor"). -/
def totalsFor (l : List TxC) : List (String × Money) :=
  let base := l.filter (fun t => t.categoria != "Renda")
  let cats := (base.map (fun t => t.categoria)).dedup
  sortByB (fun a b => Money.leB a.2 b.2)
    (cats.map (fun c =>
      (c, moneySum ((base.filter (fun t => t.categoria == c)).map (fun t => t.valor)))))

/-- The summed amount of the rows categorized with the income label. -/
def rendaTotal (l : List TxC) : Money :=
  moneySum ((l.filter (fun t => t.categoria == "Renda")).map (fun t => t.valor))

/-- Normalization of the rows: cleaned description (the original is backed
up and dropped before output) and parsed amount. -/
def normalizeRows (rows : List RawRow) : List TxN :=
  rows.map (fun r => ⟨r.data, clean_description r.descricao, normalize_monetary_value r.valor⟩)

/-- backend/crew/tools.py, BankStatementParserTool._run on the regex path
(categorization_method "regex", llm_enhanced false, no pre-filled
categoria column), over rows already keyed by the canonical columns:
extension check, emptiness check, normalization, sign partition, regex
categorization of expenses, fixed income label, recombination sorted by
date, per-category totals with the income total appended only when
strictly positive. buildPayload is the body after the structural checks;
runModel adds the extension and emptiness checks of _run. -/
def buildPayload (rows : List RawRow) : Payload :=
  let norm := normalizeRows rows
  let dfExp := (expenseRows norm).map
    (fun r => TxC.mk r.data r.descricao r.valor (categorizeRegex r.descricao))
  let dfInc := (incomeRows norm).map (fun r => TxC.mk r.data r.descricao r.valor "Renda")
  let all := sortByB (fun a b => strLeB a.data b.data) (dfExp ++ dfInc)
  let totals0 := totalsFor all
  let tr := rendaTotal all
  ⟨all.length, dfExp.length, dfInc.length,
    if 0 < tr.num then totals0 ++ [("Renda", tr)] else totals0, all⟩

def runModel (rows : List RawRow) (ext : String) : RunResult :=
  if ext ≠ ".csv" then RunResult.err ("Unsupported extension: " ++ ext)
  else if rows.isEmpty then RunResult.err "Empty or unreadable statement"
  else RunResult.ok (buildPayload rows)

/-- The character-list core of pyStrip. -/
def stripChars (l : List Char) : List Char :=
  ((l.dropWhile Char.isWhitespace).reverse.dropWhile Char.isWhitespace).reverse

/-- The claim's description of the cleaner: split on the literal " - "
separator and rejoin at most the first two segments, the input unchanged
when it has two or fewer segments. (A definition following the claim's
words, for comparison with the source functions.) -/
def claimClean (s : String) : String :=
  if 2 < (splitSep " - " s).length
  then String.intercalate " - " ((splitSep " - " s).take 2)
  else s

/-- The invariant that every stored category is the regex category of its
key: the state the cache is in when every LLM invocation has failed. -/
def cacheRegexInv (c : Cache) : Prop := ∀ k v, c k = some v → v = categorizeRegex k

example : normalize_monetary_value (some "1.234,56") = ⟨123456, 2⟩ := by decide
example : normalize_monetary_value (some "1,234.56") = ⟨123456, 5⟩ := by decide
example : normalize_monetary_value (some "123,45") = ⟨12345, 2⟩ := by decide
example : normalize_monetary_value (some "abc") = ⟨0, 0⟩ := by decide
example : normalize_monetary_value (some "R$ 1.000,00") = ⟨100000, 2⟩ := by decide
example : normalize_monetary_value (some "-45,90") = ⟨-4590, 2⟩ := by decide
example : categorizeRegex "UBER TRIP 123 - corp" = "Transporte" := by decide
example : categorizeRegex "NETFLIX.COM" = "Serviços" := by decide
example : categorizeRegex "xyzw" = "Outros" := by decide
example : clean_description
    (some "Transferência enviada pelo Pix - COMPANHIA PIRATININGA - 04.172.213/0001-51")
    = "Transferência enviada pelo Pix - COMPANHIA PIRATININGA" := by decide
example : normalizeColumnNames ["Data", "Descrição", "Valor", "Identificador"]
    = some ["data", "descricao", "valor"] := by decide
example : normalizeColumnNames ["data", "descricao", "valor", "Id"]
    = some ["data", "descricao", "valor", "Id"] := by decide
example :
    runModel [⟨"01/01/2024", some "UBER TRIP 123 - corp - 04.172/0001", some "-45,90"⟩] ".csv"
    = RunResult.ok ⟨1, 1, 0,
        [("Transporte", ⟨-4590, 2⟩)],
        [⟨"01/01/2024", "UBER TRIP 123 - corp", ⟨-4590, 2⟩, "Transporte"⟩]⟩ := by decide

theorem foldlPreserves {α β : Type} {P : β → Prop} (step : β → α → β) :
    ∀ (l : List α) (c : β), (∀ c2, ∀ x ∈ l, P c2 → P (step c2 x)) → P c → P (l.foldl step c)
  | [], _, _, h => h
  | x :: xs, c, pres, h =>
    foldlPreserves step xs (step c x)
      (fun c2 y hy => pres c2 y (List.mem_cons_of_mem _ hy))
      (pres c x (List.mem_cons_self _ _) h)

theorem foldlEstablishes {α β : Type} {P : β → Prop} (step : β → α → β) (t : α) :
    ∀ (l : List α) (c : β), (∀ c2, ∀ x ∈ l, P c2 → P (step c2 x)) →
      (∀ c2, P (step c2 t)) → t ∈ l → P (l.foldl step c)
  | [], _, _, _, ht => absurd ht (List.not_mem_nil _)
  | x :: xs, c, pres, est, ht => by
    rcases List.mem_cons.mp ht with h | h
    · subst h
      exact foldlPreserves step xs (step c t)
        (fun c2 y hy => pres c2 y (List.mem_cons_of_mem _ hy)) (est c)
    · exact foldlEstablishes step t xs (step c x)
        (fun c2 y hy => pres c2 y (List.mem_cons_of_mem _ hy)) est h

theorem cacheInsert_self (c : Cache) (k v : String) : (cacheInsert c k v) k = some v := by
  unfold cacheInsert
  simp

theorem cacheInsert_isSome_of (c : Cache) (k v q : String) (h : (c q).isSome) :
    ((cacheInsert c k v) q).isSome := by
  unfold cacheInsert
  split
  · rfl
  · exact h

theorem chunkAux_flatten {α : Type} (bs : Nat) :
    ∀ (fuel : Nat) (l : List α), (chunkAux bs fuel l).flatten = l
  | 0, [] => rfl
  | 0, _ :: _ => by simp [chunkAux]
  | fuel + 1, [] => rfl
  | fuel + 1, x :: xs => by
    show (List.take bs (x :: xs) :: chunkAux bs fuel (List.drop bs (x :: xs))).flatten
      = x :: xs
    rw [List.flatten_cons, chunkAux_flatten bs fuel (List.drop bs (x :: xs))]
    exact List.take_append_drop bs (x :: xs)

theorem chunkList_flatten {α : Type} (bs : Nat) (l : List α) : (chunkList bs l).flatten = l :=
  chunkAux_flatten bs l.length l

theorem exists_chunk_mem {α : Type} (bs : Nat) (l : List α) (t : α) (h : t ∈ l) :
    ∃ b ∈ chunkList bs l, t ∈ b := by
  rw [← chunkList_flatten bs l] at h
  exact List.mem_flatten.mp h

theorem length_insertSorted {α : Type} (le : α → α → Bool) (x : α) :
    ∀ l : List α, (insertSorted le x l).length = l.length + 1
  | [] => rfl
  | y :: ys => by
    unfold insertSorted
    split
    · simp
    · simp [length_insertSorted le x ys]

theorem length_sortByB {α : Type} (le : α → α → Bool) :
    ∀ l : List α, (sortByB le l).length = l.length
  | [] => rfl
  | x :: xs => by
    show (insertSorted le x (sortByB le xs)).length = xs.length + 1
    rw [length_insertSorted, length_sortByB le xs]

theorem mem_insertSorted {α : Type} (le : α → α → Bool) (x a : α) :
    ∀ l : List α, a ∈ insertSorted le x l ↔ a = x ∨ a ∈ l
  | [] => by simp [insertSorted]
  | y :: ys => by
    unfold insertSorted
    split
    · simp
    · rw [List.mem_cons, List.mem_cons, mem_insertSorted le x a ys]
      tauto

theorem mem_sortByB {α : Type} (le : α → α → Bool) (a : α) :
    ∀ l : List α, a ∈ sortByB le l ↔ a ∈ l
  | [] => Iff.rfl
  | x :: xs => by
    show a ∈ insertSorted le x (sortByB le xs) ↔ _
    rw [mem_insertSorted, mem_sortByB le a xs, List.mem_cons]

theorem Money.toRat_pos_iff (m : Money) : 0 < m.toRat ↔ 0 < m.num := by
  unfold Money.toRat
  have hp : (0 : ℚ) < 10 ^ m.scale := pow_pos (by norm_num) _
  rw [div_pos_iff]
  constructor
  · rintro (⟨h, _⟩ | ⟨_, hb⟩)
    · exact_mod_cast h
    · linarith
  · intro h
    exact Or.inl ⟨by exact_mod_cast h, hp⟩

theorem Money.toRat_neg_iff (m : Money) : m.toRat < 0 ↔ m.num < 0 := by
  unfold Money.toRat
  have hp : (0 : ℚ) < 10 ^ m.scale := pow_pos (by norm_num) _
  rw [div_neg_iff]
  constructor
  · rintro (⟨_, hb⟩ | ⟨h, _⟩)
    · linarith
    · exact_mod_cast h
  · intro h
    exact Or.inr ⟨by exact_mod_cast h, hp⟩

theorem Money.toRat_nonneg_iff (m : Money) : 0 ≤ m.toRat ↔ 0 ≤ m.num := by
  unfold Money.toRat
  have hp : (0 : ℚ) < 10 ^ m.scale := pow_pos (by norm_num) _
  rw [div_nonneg_iff]
  constructor
  · rintro (⟨h, _⟩ | ⟨_, hb⟩)
    · exact_mod_cast h
    · linarith
  · intro h
    exact Or.inl ⟨by exact_mod_cast h, le_of_lt hp⟩

theorem categorizeRegex_mem_or_default (d : String) :
    categorizeRegex d = "Outros" ∨ ∃ p ∈ CATEGORY_MAP, categorizeRegex d = p.2 := by
  cases h : CATEGORY_MAP.find? (fun p => matchesPattern p.1 (pyLower d)) with
  | none => exact Or.inl (by unfold categorizeRegex; rw [h])
  | some p =>
    exact Or.inr ⟨p, List.mem_of_find?_eq_some h, by unfold categorizeRegex; rw [h]⟩

theorem categorizeRegex_ne_empty (d : String) : categorizeRegex d ≠ "" := by
  rcases categorizeRegex_mem_or_default d with h | ⟨p, hp, h⟩
  · rw [h]
    decide
  · rw [h]
    have : ∀ q ∈ CATEGORY_MAP, q.2 ≠ "" := by decide
    exact this p hp

theorem processResultado_mono (resultado : List (String × String)) (c : Cache) (q : String)
    (h : (c q).isSome) : ((processResultado c resultado) q).isSome := by
  unfold processResultado
  refine foldlPreserves (P := fun c2 : Cache => (c2 q).isSome) _ resultado c ?_ h
  intro c2 p _ h2
  dsimp only
  split
  · exact cacheInsert_isSome_of _ _ _ _ h2
  · exact h2

theorem processBlock_mono (llm : LLMFun) (b : List String) (c : Cache) (q : String)
    (h : (c q).isSome) : ((processBlock llm c b) q).isSome := by
  unfold processBlock
  cases hllm : llm b with
  | ok resultado =>
    dsimp only
    refine foldlPreserves (P := fun c2 : Cache => (c2 q).isSome) _ b _ ?_
      (processResultado_mono resultado c q h)
    intro c2 x _ h2
    dsimp only
    split
    · exact cacheInsert_isSome_of _ _ _ _ h2
    · exact h2
  | error e =>
    dsimp only
    refine foldlPreserves (P := fun c2 : Cache => (c2 q).isSome) _ b _ ?_ h
    intro c2 x _ h2
    dsimp only
    split
    · exact cacheInsert_isSome_of _ _ _ _ h2
    · exact h2

theorem processBlock_covers (llm : LLMFun) (b : List String) (c : Cache) (t : String)
    (ht : t ∈ b) : ((processBlock llm c b) (clean_transaction_name t)).isSome := by
  unfold processBlock
  cases hllm : llm b with
  | ok resultado =>
    dsimp only
    by_cases hmem : clean_transaction_name t
        ∈ resultado.map (fun p => clean_transaction_name p.1)
    · obtain ⟨p, hp, hpt⟩ := List.mem_map.mp hmem
      refine foldlPreserves (P := fun c2 : Cache => (c2 (clean_transaction_name t)).isSome)
        _ b _ ?_ ?_
      · intro c2 x _ h2
        dsimp only
        split
        · exact cacheInsert_isSome_of _ _ _ _ h2
        · exact h2
      · unfold processResultado
        refine foldlEstablishes (P := fun c2 : Cache => (c2 (clean_transaction_name t)).isSome)
          _ p resultado c ?_ ?_ hp
        · intro c2 x _ h2
          dsimp only
          split
          · exact cacheInsert_isSome_of _ _ _ _ h2
          · exact h2
        · intro c2
          dsimp only
          rw [hpt]
          split
          · rw [cacheInsert_self]
            rfl
          · rename_i hcond
            rw [Bool.or_eq_true, Option.isNone_iff_eq_none] at hcond
            push_neg at hcond
            rw [Option.isSome_iff_ne_none]
            intro h0
            exact hcond.1 h0
    · refine foldlEstablishes (P := fun c2 : Cache => (c2 (clean_transaction_name t)).isSome)
        _ t b _ ?_ ?_ ht
      · intro c2 x _ h2
        dsimp only
        split
        · exact cacheInsert_isSome_of _ _ _ _ h2
        · exact h2
      · intro c2
        dsimp only
        by_cases hnone : c2 (clean_transaction_name t) = none
        · have hcond : ((!((List.map (fun p => clean_transaction_name p.1) resultado).contains
              (clean_transaction_name t))) && (c2 (clean_transaction_name t)).isNone) = true := by
            rw [Bool.and_eq_true, Bool.not_eq_true']
            exact ⟨by simpa using hmem, by rw [hnone]; rfl⟩
          rw [if_pos hcond, cacheInsert_self]
          rfl
        · split
          · rw [cacheInsert_self]
            rfl
          · exact Option.isSome_iff_ne_none.mpr hnone
  | error e =>
    dsimp only
    refine foldlEstablishes (P := fun c2 : Cache => (c2 (clean_transaction_name t)).isSome)
      _ t b _ ?_ ?_ ht
    · intro c2 x _ h2
      dsimp only
      split
      · exact cacheInsert_isSome_of _ _ _ _ h2
      · exact h2
    · intro c2
      dsimp only
      split
      · rw [cacheInsert_self]
        rfl
      · rename_i hcond
        rw [Option.isNone_iff_eq_none] at hcond
        rw [Option.isSome_iff_ne_none]
        exact hcond

theorem ollamaFinalCache_covers (llm : LLMFun) (bs : Nat) (cache0 : Cache) (ts : List String)
    (t : String) (ht : t ∈ ts) (htc : clean_transaction_name t ≠ "") :
    ((ollamaFinalCache llm bs cache0 ts) (clean_transaction_name t)).isSome := by
  unfold ollamaFinalCache
  by_cases hc : (cache0 (clean_transaction_name t)).isSome
  · split
    · exact hc
    · exact foldlPreserves (P := fun c2 : Cache => (c2 (clean_transaction_name t)).isSome)
        _ _ cache0 (fun c2 b _ h2 => processBlock_mono llm b c2 _ h2) hc
  · have hnone : cache0 (clean_transaction_name t) = none :=
      Option.not_isSome_iff_eq_none.mp hc
    have htmem : t ∈ selectToCategorize cache0 ts := by
      unfold selectToCategorize
      rw [List.mem_filter]
      refine ⟨ht, ?_⟩
      dsimp only
      rw [Bool.and_eq_true, bne_iff_ne]
      exact ⟨htc, by rw [hnone]; rfl⟩
    have hne : ¬ (selectToCategorize cache0 ts).isEmpty = true := by
      intro h0
      rw [List.isEmpty_iff] at h0
      rw [h0] at htmem
      exact List.not_mem_nil t htmem
    rw [if_neg hne]
    obtain ⟨b, hb, htb⟩ := exists_chunk_mem bs (selectToCategorize cache0 ts) t htmem
    exact foldlEstablishes (P := fun c2 : Cache => (c2 (clean_transaction_name t)).isSome)
      (processBlock llm) b (chunkList bs (selectToCategorize cache0 ts)) cache0
      (fun c2 x _ h2 => processBlock_mono llm x c2 _ h2)
      (fun c2 => processBlock_covers llm b c2 t htb) hb

theorem select_final_empty (llm : LLMFun) (bs : Nat) (cache0 : Cache) (ts : List String) :
    selectToCategorize (ollamaFinalCache llm bs cache0 ts) ts = [] := by
  unfold selectToCategorize
  rw [List.filter_eq_nil_iff]
  intro t ht
  dsimp only
  intro hcond
  rw [Bool.and_eq_true, bne_iff_ne] at hcond
  have hsome := ollamaFinalCache_covers llm bs cache0 ts t ht hcond.1
  rw [Option.isSome_iff_ne_none] at hsome
  exact hsome (Option.isNone_iff_eq_none.mp hcond.2)

theorem ollamaFinalCache_stable (llm2 : LLMFun) (bs2 : Nat) (cache1 : Cache)
    (ts : List String) (hsel : selectToCategorize cache1 ts = []) :
    ollamaFinalCache llm2 bs2 cache1 ts = cache1 := by
  unfold ollamaFinalCache
  rw [hsel]
  rfl

theorem cacheRegexInv_empty : cacheRegexInv emptyCache := by
  intro k v h
  exact Option.noConfusion h

theorem processBlockFail_inv (llm : LLMFun) (b : List String)
    (hfail : llm b = Except.error ())
    (hb : ∀ x ∈ b, clean_transaction_name x = x)
    (c : Cache) (hc : cacheRegexInv c) : cacheRegexInv (processBlock llm c b) := by
  unfold processBlock
  rw [hfail]
  dsimp only
  refine foldlPreserves (P := cacheRegexInv) _ b c ?_ hc
  intro c2 x hx h2
  dsimp only
  split
  · intro k v hkv
    unfold cacheInsert at hkv
    rw [hb x hx] at hkv
    by_cases hk : k = x
    · rw [if_pos hk] at hkv
      injection hkv with h3
      rw [hk]
      exact h3.symm
    · rw [if_neg hk] at hkv
      exact h2 k v hkv
  · exact h2

theorem ollamaFinalCache_regexInv (llm : LLMFun) (hfail : ∀ b, llm b = Except.error ())
    (bs : Nat) (ts : List String) (hclean : ∀ t ∈ ts, clean_transaction_name t = t) :
    cacheRegexInv (ollamaFinalCache llm bs emptyCache ts) := by
  unfold ollamaFinalCache
  split
  · exact cacheRegexInv_empty
  · refine foldlPreserves (P := cacheRegexInv) _ _ emptyCache ?_ cacheRegexInv_empty
    intro c2 b hb h2
    refine processBlockFail_inv llm b (hfail b) ?_ c2 h2
    intro x hx
    have hxcat : x ∈ selectToCategorize emptyCache ts := by
      have hxf := List.mem_flatten.mpr ⟨b, hb, hx⟩
      rwa [chunkList_flatten] at hxf
    exact hclean x (List.mem_filter.mp hxcat).1

theorem applyCacheCategories_regex (cache : Cache) (ts : List String)
    (hinv : cacheRegexInv cache) (hclean : ∀ t ∈ ts, clean_transaction_name t = t) :
    applyCacheCategories cache ts = ts.map categorizeRegex := by
  unfold applyCacheCategories
  refine List.map_congr_left ?_
  intro t ht
  cases h : cache (clean_transaction_name t) with
  | none => rfl
  | some v =>
    have hv : v = categorizeRegex (clean_transaction_name t) := hinv _ _ h
    rw [hclean t ht] at hv
    dsimp only
    rw [if_neg (by rw [hv]; exact categorizeRegex_ne_empty t)]
    exact hv

theorem dropWhile_idem {α : Type} (p : α → Bool) :
    ∀ l : List α, (l.dropWhile p).dropWhile p = l.dropWhile p
  | [] => rfl
  | a :: l => by
    rw [List.dropWhile_cons]
    by_cases h : p a = true
    · rw [if_pos h]
      exact dropWhile_idem p l
    · rw [if_neg h, List.dropWhile_cons, if_neg h]

theorem lengthDropWhileLe {α : Type} (p : α → Bool) :
    ∀ l : List α, (l.dropWhile p).length ≤ l.length
  | [] => Nat.le_refl 0
  | a :: l => by
    rw [List.dropWhile_cons]
    by_cases h : p a = true
    · rw [if_pos h]
      exact Nat.le_succ_of_le (lengthDropWhileLe p l)
    · rw [if_neg h]

theorem dropWhile_eq_self_of_append {α : Type} (p : α → Bool) (xs ys : List α)
    (h : (xs ++ ys).dropWhile p = xs ++ ys) : xs.dropWhile p = xs := by
  cases xs with
  | nil => rfl
  | cons x xs2 =>
    rw [List.cons_append, List.dropWhile_cons] at h
    by_cases hpx : p x = true
    · rw [if_pos hpx] at h
      have hlen := lengthDropWhileLe p (xs2 ++ ys)
      rw [h] at hlen
      simp only [List.length_cons] at hlen
      omega
    · rw [List.dropWhile_cons, if_neg hpx]

theorem stripChars_idem (m : List Char) : stripChars (stripChars m) = stripChars m := by
  unfold stripChars
  have hXA : ((m.dropWhile Char.isWhitespace).reverse.dropWhile Char.isWhitespace).reverse
      ++ ((m.dropWhile Char.isWhitespace).reverse.takeWhile Char.isWhitespace).reverse
      = m.dropWhile Char.isWhitespace := by
    rw [← List.reverse_append, List.takeWhile_append_dropWhile, List.reverse_reverse]
  have hX : (((m.dropWhile Char.isWhitespace).reverse.dropWhile
        Char.isWhitespace).reverse).dropWhile Char.isWhitespace
      = ((m.dropWhile Char.isWhitespace).reverse.dropWhile Char.isWhitespace).reverse := by
    apply dropWhile_eq_self_of_append Char.isWhitespace _
      (((m.dropWhile Char.isWhitespace).reverse.takeWhile Char.isWhitespace).reverse)
    rw [hXA]
    exact dropWhile_idem Char.isWhitespace m
  rw [hX, List.reverse_reverse, dropWhile_idem Char.isWhitespace
    (m.dropWhile Char.isWhitespace).reverse]

theorem pyStrip_idem (s : String) : pyStrip (pyStrip s) = pyStrip s := by
  calc pyStrip (pyStrip s) = (stripChars (stripChars s.toList)).asString := rfl
    _ = (stripChars s.toList).asString := by rw [stripChars_idem]
    _ = pyStrip s := rfl

theorem dropIdStep_eq_filter (cs : List String) (n : String) :
    dropIdStep cs n = cs.filter (fun c => c != n) := by
  unfold dropIdStep
  split
  · rfl
  · rename_i h
    symm
    rw [List.filter_eq_self]
    intro a ha
    rw [bne_iff_ne]
    intro heq
    subst heq
    exact h (by simpa using ha)

/-- C1 (corrected): of the four documented monetary strings, the parser
returns 1234.56 for "1.234,56", 123.45 for "123,45" and 0.0 for "abc" as
claimed, but "1,234.56" yields 1.23456: the single-comma-with-dot branch
strips the dot as a thousands separator and reads the comma as the decimal
point. -/
theorem c1_theorem :
    (normalize_monetary_value (some "1.234,56")).toRat = 1234.56 ∧
    (normalize_monetary_value (some "1,234.56")).toRat = 1.23456 ∧
    (normalize_monetary_value (some "123,45")).toRat = 123.45 ∧
    (normalize_monetary_value (some "abc")).toRat = 0 := by
  refine ⟨?_, ?_, ?_, ?_⟩
  · rw [(by decide : normalize_monetary_value (some "1.234,56") = (⟨123456, 2⟩ : Money))]
    norm_num [Money.toRat]
  · rw [(by decide : normalize_monetary_value (some "1,234.56") = (⟨123456, 5⟩ : Money))]
    norm_num [Money.toRat]
  · rw [(by decide : normalize_monetary_value (some "123,45") = (⟨12345, 2⟩ : Money))]
    norm_num [Money.toRat]
  · rw [(by decide : normalize_monetary_value (some "abc") = (⟨0, 0⟩ : Money))]
    norm_num [Money.toRat]

/-- C1 counterexample: the parser maps "1,234.56" to 1.23456, not to the
claimed 1234.56. -/
theorem c1_counterexample :
    (normalize_monetary_value (some "1,234.56")).toRat ≠ 1234.56 ∧
    (normalize_monetary_value (some "1,234.56")).toRat = 1.23456 := by
  rw [(by decide : normalize_monetary_value (some "1,234.56") = (⟨123456, 5⟩ : Money))]
  constructor
  · norm_num [Money.toRat]
  · norm_num [Money.toRat]

/-- C2 (corrected): the transactions submitted to the LLM are exactly
those of the input whose cleaned name is nonempty and ABSENT from the
cache; a cache hit is never re-submitted, regardless of its stored value
(so also when it stores the default "Outros"). -/
theorem c2_theorem (cache : Cache) (ts : List String) (t : String) :
    t ∈ selectToCategorize cache ts ↔
      t ∈ ts ∧ clean_transaction_name t ≠ "" ∧ cache (clean_transaction_name t) = none := by
  unfold selectToCategorize
  rw [List.mem_filter]
  dsimp only
  rw [Bool.and_eq_true, bne_iff_ne, Option.isNone_iff_eq_none]

/-- C2 counterexample: a description cached with the default value
"Outros" is not in the set submitted to the LLM, contradicting the claimed
re-submission of default-valued cache entries. -/
theorem c2_counterexample :
    (cacheInsert emptyCache "pizza hut" "Outros") (clean_transaction_name "pizza hut")
      = some "Outros" ∧
    selectToCategorize (cacheInsert emptyCache "pizza hut" "Outros") ["pizza hut"] = [] := by
  constructor
  · decide
  · decide

/-- C7 (corrected): clean_transaction_name implements exactly the claimed
split-and-rejoin contract (with empty input mapped to the empty string),
while _clean_description additionally strips surrounding whitespace,
before the segment logic and again on the rejoined result, and maps an
absent (NaN) description to the empty string. -/
theorem c7_theorem :
    (∀ s : String, clean_transaction_name s = if s = "" then "" else claimClean s) ∧
    clean_description none = "" ∧
    (∀ v : String, clean_description (some v) = pyStrip (claimClean (pyStrip v))) := by
  refine ⟨fun s => rfl, rfl, fun v => ?_⟩
  have hL : clean_description (some v) =
      (if v = "" then ""
       else if 2 ≤ (splitSep " - " (pyStrip v)).length - 1
         then pyStrip (String.intercalate " - " ((splitSep " - " (pyStrip v)).take 2))
         else pyStrip v) := rfl
  rw [hL]
  by_cases hv : v = ""
  · subst hv
    rw [if_pos rfl]
    decide
  · rw [if_neg hv]
    unfold claimClean
    by_cases hp : 2 < (splitSep " - " (pyStrip v)).length
    · rw [if_pos (by omega), if_pos hp]
    · rw [if_neg (by omega), if_neg hp, pyStrip_idem]

/-- C7 counterexample: on the input " a " (one segment, so claimed to be
returned unchanged) _clean_description returns the stripped "a". -/
theorem c7_counterexample :
    clean_description (some " a ") ≠ " a " ∧ clean_description (some " a ") = "a" := by
  constructor
  · decide
  · decide

/-- C8 (confirmed): saving a mapping and loading the same path returns the
mapping unchanged, and loading a missing path returns the empty mapping. -/
theorem c8_theorem (m : Cache) (path : String) (fs : FS) (_hm : m ≠ emptyCache) :
    load_cache path (save_cache m path fs) = m ∧
    (fs path = none → load_cache path fs = emptyCache) := by
  constructor
  · unfold load_cache save_cache
    simp
  · intro h
    unfold load_cache
    rw [h]
    rfl

theorem c8_witness :
    load_cache "categorias_cache.pkl"
        (save_cache (cacheInsert emptyCache "uber" "Transporte") "categorias_cache.pkl"
          (fun _ => none))
      = cacheInsert emptyCache "uber" "Transporte" ∧
    ((fun _ => none : FS) "categorias_cache.pkl" = none →
      load_cache "categorias_cache.pkl" (fun _ => none) = emptyCache) :=
  c8_theorem (cacheInsert emptyCache "uber" "Transporte") "categorias_cache.pkl"
    (fun _ => none)
    (by
      intro h
      have h2 := congrFun h "uber"
      rw [cacheInsert_self] at h2
      exact Option.noConfusion h2)

/-- C9 (corrected): the identifier-drop of column normalization removes
exactly the columns named "identificador", "Identificador", "id" or "ID";
the match is case-sensitive, so every other spelling is kept. -/
theorem c9_theorem (cs : List String) (c : String) :
    c ∈ dropIdCols cs ↔
      c ∈ cs ∧ c ∉ ["identificador", "Identificador", "id", "ID"] := by
  show c ∈ dropIdStep (dropIdStep (dropIdStep (dropIdStep cs "identificador")
      "Identificador") "id") "ID" ↔ _
  simp only [dropIdStep_eq_filter, List.mem_filter, bne_iff_ne, List.mem_cons,
    List.not_mem_nil]
  tauto

/-- C9 counterexample: an all-caps "IDENTIFICADOR" column survives column
normalization and the later identifier drop of _run, contradicting the
claimed case-insensitive removal. -/
theorem c9_counterexample :
    normalizeColumnNames ["data", "descricao", "valor", "IDENTIFICADOR"]
      = some ["data", "descricao", "valor", "IDENTIFICADOR"] ∧
    dropIdRun ["data", "descricao", "valor", "IDENTIFICADOR"]
      = ["data", "descricao", "valor", "IDENTIFICADOR"] := by
  constructor
  · decide
  · decide

/-- C3 (confirmed): with a fresh (empty) cache, when the LLM invocation
raises for every block, categorization never aborts and yields for every
transaction exactly the regex category of its (already cleaned)
description, which is never empty. The hypothesis on the transaction list
states that the descriptions are _clean_description outputs, which are
fixed points of clean_transaction_name, as produced by _run. -/
theorem c3_theorem (llm : LLMFun) (hfail : ∀ b, llm b = Except.error ())
    (bs : Nat) (_hbs : 0 < bs) (ts : List String)
    (hclean : ∀ t ∈ ts, clean_transaction_name t = t) :
    (categorize_with_ollama llm bs emptyCache ts).1 = ts.map categorizeRegex ∧
    ∀ c ∈ (categorize_with_ollama llm bs emptyCache ts).1, c ≠ "" := by
  have hmain : (categorize_with_ollama llm bs emptyCache ts).1 = ts.map categorizeRegex := by
    show applyCacheCategories (ollamaFinalCache llm bs emptyCache ts) ts = _
    exact applyCacheCategories_regex _ ts
      (ollamaFinalCache_regexInv llm hfail bs ts hclean) hclean
  refine ⟨hmain, ?_⟩
  rw [hmain]
  intro c hc
  obtain ⟨t, _, rfl⟩ := List.mem_map.mp hc
  exact categorizeRegex_ne_empty t

theorem c3_witness :
    (categorize_with_ollama (fun _ => Except.error ()) 2 emptyCache
        ["uber corrida", "netflix"]).1
      = ["uber corrida", "netflix"].map categorizeRegex ∧
    ∀ c ∈ (categorize_with_ollama (fun _ => Except.error ()) 2 emptyCache
        ["uber corrida", "netflix"]).1, c ≠ "" :=
  c3_theorem (fun _ => Except.error ()) (fun _ => rfl) 2 (by decide)
    ["uber corrida", "netflix"] (by decide)

/-- C4 (confirmed): rerunning the Ollama categorization on the same
transactions with the cache the first run left behind submits nothing to
the LLM (the selection is empty, every nonempty cleaned description being
a cache hit) and returns the identical category list, with the cache
unchanged; this holds for any first-run LLM behaviour and any initial
cache. -/
theorem c4_theorem (llm1 llm2 : LLMFun) (bs1 bs2 : Nat) (_hbs1 : 0 < bs1) (_hbs2 : 0 < bs2)
    (cache0 : Cache) (ts : List String) :
    selectToCategorize (categorize_with_ollama llm1 bs1 cache0 ts).2 ts = [] ∧
    (categorize_with_ollama llm2 bs2 (categorize_with_ollama llm1 bs1 cache0 ts).2 ts).1
      = (categorize_with_ollama llm1 bs1 cache0 ts).1 ∧
    (categorize_with_ollama llm2 bs2 (categorize_with_ollama llm1 bs1 cache0 ts).2 ts).2
      = (categorize_with_ollama llm1 bs1 cache0 ts).2 := by
  have hsel : selectToCategorize (ollamaFinalCache llm1 bs1 cache0 ts) ts = [] :=
    select_final_empty llm1 bs1 cache0 ts
  have hstab : ollamaFinalCache llm2 bs2 (ollamaFinalCache llm1 bs1 cache0 ts) ts
      = ollamaFinalCache llm1 bs1 cache0 ts :=
    ollamaFinalCache_stable llm2 bs2 _ ts hsel
  refine ⟨hsel, ?_, ?_⟩
  · show applyCacheCategories
        (ollamaFinalCache llm2 bs2 (ollamaFinalCache llm1 bs1 cache0 ts) ts) ts
      = applyCacheCategories (ollamaFinalCache llm1 bs1 cache0 ts) ts
    rw [hstab]
  · exact hstab

theorem c4_witness :
    selectToCategorize
        (categorize_with_ollama (fun _ => Except.ok [("ifood pedido", "Alimentação")]) 1
          emptyCache ["ifood pedido", "posto shell"]).2
        ["ifood pedido", "posto shell"] = [] ∧
    (categorize_with_ollama (fun _ => Except.error ()) 1
        (categorize_with_ollama (fun _ => Except.ok [("ifood pedido", "Alimentação")]) 1
          emptyCache ["ifood pedido", "posto shell"]).2
        ["ifood pedido", "posto shell"]).1
      = (categorize_with_ollama (fun _ => Except.ok [("ifood pedido", "Alimentação")]) 1
          emptyCache ["ifood pedido", "posto shell"]).1 ∧
    (categorize_with_ollama (fun _ => Except.error ()) 1
        (categorize_with_ollama (fun _ => Except.ok [("ifood pedido", "Alimentação")]) 1
          emptyCache ["ifood pedido", "posto shell"]).2
        ["ifood pedido", "posto shell"]).2
      = (categorize_with_ollama (fun _ => Except.ok [("ifood pedido", "Alimentação")]) 1
          emptyCache ["ifood pedido", "posto shell"]).2 :=
  c4_theorem (fun _ => Except.ok [("ifood pedido", "Alimentação")])
    (fun _ => Except.error ()) 1 1 (by decide) (by decide) emptyCache
    ["ifood pedido", "posto shell"]

theorem runModel_ok_payload (rows : List RawRow) (p : Payload)
    (h : runModel rows ".csv" = RunResult.ok p) : p = buildPayload rows := by
  unfold runModel at h
  rw [if_neg (fun hne => hne rfl)] at h
  split at h
  · exact RunResult.noConfusion h
  · injection h with h2
    exact h2.symm

theorem buildPayload_counts (rows : List RawRow) :
    (buildPayload rows).n_despesas + (buildPayload rows).n_receitas
      = (buildPayload rows).n_transacoes := by
  unfold buildPayload
  dsimp only
  rw [length_sortByB, List.length_append]

/-- C5 (confirmed): whenever a run produces the ok payload, the partition
counts satisfy n_despesas + n_receitas = n_transacoes, every row of the
expense partition has a strictly negative normalized amount and every row
of the income partition a non-negative one. -/
theorem c5_theorem (rows : List RawRow) (p : Payload)
    (h : runModel rows ".csv" = RunResult.ok p) :
    p.n_despesas + p.n_receitas = p.n_transacoes ∧
    (∀ t ∈ expenseRows (normalizeRows rows), t.valor.toRat < 0) ∧
    (∀ t ∈ incomeRows (normalizeRows rows), 0 ≤ t.valor.toRat) := by
  obtain rfl := runModel_ok_payload rows p h
  refine ⟨buildPayload_counts rows, ?_, ?_⟩
  · intro t ht
    rw [Money.toRat_neg_iff]
    have h2 := (List.mem_filter.mp ht).2
    simpa using h2
  · intro t ht
    rw [Money.toRat_nonneg_iff]
    have h2 := (List.mem_filter.mp ht).2
    simpa using h2

theorem c5_witness :
    (RunResult.payloadD (runModel
        [⟨"2024-01-01", some "uber corrida", some "-10,50"⟩,
         ⟨"2024-01-02", some "salario empresa", some "3500,00"⟩] ".csv")).n_despesas
      + (RunResult.payloadD (runModel
        [⟨"2024-01-01", some "uber corrida", some "-10,50"⟩,
         ⟨"2024-01-02", some "salario empresa", some "3500,00"⟩] ".csv")).n_receitas
      = (RunResult.payloadD (runModel
        [⟨"2024-01-01", some "uber corrida", some "-10,50"⟩,
         ⟨"2024-01-02", some "salario empresa", some "3500,00"⟩] ".csv")).n_transacoes ∧
    (∀ t ∈ expenseRows (normalizeRows
        [⟨"2024-01-01", some "uber corrida", some "-10,50"⟩,
         ⟨"2024-01-02", some "salario empresa", some "3500,00"⟩]), t.valor.toRat < 0) ∧
    (∀ t ∈ incomeRows (normalizeRows
        [⟨"2024-01-01", some "uber corrida", some "-10,50"⟩,
         ⟨"2024-01-02", some "salario empresa", some "3500,00"⟩]), 0 ≤ t.valor.toRat) :=
  c5_theorem
    [⟨"2024-01-01", some "uber corrida", some "-10,50"⟩,
     ⟨"2024-01-02", some "salario empresa", some "3500,00"⟩]
    (RunResult.payloadD (runModel
      [⟨"2024-01-01", some "uber corrida", some "-10,50"⟩,
       ⟨"2024-01-02", some "salario empresa", some "3500,00"⟩] ".csv"))
    (by decide)

/-- C6 (confirmed): the parser model always returns a structured result:
an unsupported extension or an empty dataset yields the {ok: false, error}
object with the documented message, and every invocation is either an ok
payload or such an error object (the try/except of _run turns any raised
exception into the error object, so nothing escapes to the caller). -/
theorem c6_theorem (rows : List RawRow) (ext : String) :
    (ext ≠ ".csv" → runModel rows ext = RunResult.err ("Unsupported extension: " ++ ext)) ∧
    (rows = [] → runModel rows ".csv" = RunResult.err "Empty or unreadable statement") ∧
    ((∃ p, runModel rows ext = RunResult.ok p) ∨ (∃ e, runModel rows ext = RunResult.err e)) := by
  refine ⟨?_, ?_, ?_⟩
  · intro hne
    unfold runModel
    rw [if_pos hne]
  · intro hrows
    subst hrows
    rfl
  · unfold runModel
    split
    · exact Or.inr ⟨_, rfl⟩
    · split
      · exact Or.inr ⟨_, rfl⟩
      · exact Or.inl ⟨_, rfl⟩

theorem c6_witness :
    runModel [] ".txt" = RunResult.err "Unsupported extension: .txt" ∧
    runModel ([] : List RawRow) ".csv" = RunResult.err "Empty or unreadable statement" :=
  ⟨(c6_theorem [] ".txt").1 (by decide), (c6_theorem [] ".csv").2.1 rfl⟩

theorem rendaNotMem_totalsFor (l : List TxC) (v : Money) :
    ("Renda", v) ∉ totalsFor l := by
  intro hmem
  unfold totalsFor at hmem
  rw [mem_sortByB] at hmem
  obtain ⟨c, hc, heq⟩ := List.mem_map.mp hmem
  have hcr : c = "Renda" := congrArg Prod.fst heq
  rw [List.mem_dedup] at hc
  obtain ⟨t, ht, hteq⟩ := List.mem_map.mp hc
  have hne := (List.mem_filter.mp ht).2
  rw [bne_iff_ne] at hne
  exact hne (by rw [hteq, hcr])

theorem renda_line_iff (all : List TxC) :
    (∃ v, ("Renda", v) ∈ (if 0 < (rendaTotal all).num
        then totalsFor all ++ [("Renda", rendaTotal all)] else totalsFor all))
      ↔ 0 < (rendaTotal all).num := by
  constructor
  · rintro ⟨v, hv⟩
    split at hv
    · assumption
    · exact absurd hv (rendaNotMem_totalsFor all v)
  · intro hpos
    refine ⟨rendaTotal all, ?_⟩
    rw [if_pos hpos]
    exact List.mem_append_right _ (by simp)

/-- C10 (confirmed): the payload contains a separate "Renda" line in
totais_por_categoria exactly when the summed amount of the rows
categorized "Renda" is strictly positive; a zero (or negative) income sum,
including the no-income case, produces no such line. -/
theorem c10_theorem (rows : List RawRow) (p : Payload)
    (h : runModel rows ".csv" = RunResult.ok p) :
    (∃ v, ("Renda", v) ∈ p.totais_por_categoria)
      ↔ 0 < (rendaTotal p.transacoes).toRat := by
  obtain rfl := runModel_ok_payload rows p h
  rw [Money.toRat_pos_iff]
  exact renda_line_iff ((buildPayload rows).transacoes)

theorem c10_witness :
    ((∃ v, ("Renda", v) ∈ (RunResult.payloadD (runModel
        [⟨"2024-01-01", some "mercado x", some "-5,00"⟩,
         ⟨"2024-01-02", some "salario", some "1000,00"⟩] ".csv")).totais_por_categoria)
      ↔ 0 < (rendaTotal (RunResult.payloadD (runModel
        [⟨"2024-01-01", some "mercado x", some "-5,00"⟩,
         ⟨"2024-01-02", some "salario", some "1000,00"⟩] ".csv")).transacoes).toRat) :=
  c10_theorem
    [⟨"2024-01-01", some "mercado x", some "-5,00"⟩,
     ⟨"2024-01-02", some "salario", some "1000,00"⟩]
    (RunResult.payloadD (runModel
      [⟨"2024-01-01", some "mercado x", some "-5,00"⟩,
       ⟨"2024-01-02", some "salario", some "1000,00"⟩] ".csv"))
    (by decide)
